import Mathlib

/-!
# Verification of the impulse-log backend

Shallow embedding of the Express/PostgreSQL backend (`src/unnamed/part_000`)
of the impulse-journal application, together with proofs about its
report-generation statistics, context assembly, AI fallback handling, and
CRUD error behaviour.

Modelling conventions:
* Timestamps (`datetime`) are milliseconds since the epoch, as `Nat`
  (JS `Date.getTime()`); `Date.getHours()` on such a timestamp is
  `dt / 3600000 % 24` (the model identifies local time with the timestamp's
  own clock, as the spec's §4.1 "local time as supplied in `datetime`" does).
* JS `Math.round` on a non-negative number is `⌊x + 1/2⌋`; the float64
  arithmetic of `(resisted / total) * 100` is modelled by exact rationals.
* SQL result sets, the `impulse_logs` table and the `reports` table are
  Lean lists; `SERIAL` ids are `length + 1`.
* The external OpenAI completion call is an oracle parameter of type
  `Except Unit (Option String)`: `.error` is a thrown service error,
  `.ok c` a response whose `message.content` is `c` (`none` = JS `null`).
-/

namespace ImpulseApp

/-- A row of the `impulse_logs` table: `(id, datetime, feeling, acted)`.
The `acted` column is a `VARCHAR` that the schema constrains to
`'yes'`/`'no'`; the model keeps it as a string because the code compares
it textually (`log.acted === 'yes'`). -/
structure ImpulseLog where
  id : Nat
  datetime : Nat
  feeling : String
  acted : String
deriving Repr, DecidableEq

/-- A row of the `reports` table. -/
structure Report where
  id : Nat
  week_start : Nat
  week_end : Nat
  content : String
deriving Repr, DecidableEq

/-- `new Date(log.datetime).getHours()`: hour-of-day component, 0–23. -/
def getHours (dt : Nat) : Nat := dt / 3600000 % 24

/-- Seven days in milliseconds (`weekStart.setDate(getDate() - 7)`,
modelled as a fixed 7·24h offset). -/
def sevenDaysMs : Nat := 7 * 86400000

/-- `SELECT ... WHERE datetime BETWEEN $1 AND $2 ORDER BY datetime`:
SQL `BETWEEN` is inclusive at both endpoints. -/
def listInWindow (start stop : Nat) (logs : List ImpulseLog) : List ImpulseLog :=
  logs.filter (fun l => start ≤ l.datetime && l.datetime ≤ stop)

/-- `logs.filter(log => log.acted === 'yes').length`. -/
def actedImpulses (logs : List ImpulseLog) : Nat :=
  (logs.filter (fun l => l.acted == "yes")).length

/-- `totalImpulses - actedImpulses`. -/
def resistedImpulses (logs : List ImpulseLog) : Nat :=
  logs.length - actedImpulses logs

/-- JS `Math.round` (round half toward +∞), on exact rationals. -/
def jsMathRound (q : ℚ) : ℤ := ⌊q + 1 / 2⌋

/-- `Math.round((resistedImpulses / totalImpulses) * 100)`. -/
def resistanceRate (logs : List ImpulseLog) : ℤ :=
  jsMathRound ((resistedImpulses logs : ℚ) / (logs.length : ℚ) * 100)

/-- The 24-slot `hourlyStats` array: slot `h` counts the logs whose
hour-of-day is `h` (the source fills it by one `forEach` increment pass). -/
def hourCount (logs : List ImpulseLog) (h : Nat) : Nat :=
  (logs.filter (fun l => getHours l.datetime == h)).length

/-- `hourlyStats` as the list of its 24 slots. -/
def hourlyStats (logs : List ImpulseLog) : List Nat :=
  (List.range 24).map (hourCount logs)

/-- `hourlyStats.indexOf(Math.max(...hourlyStats))`. -/
def peakHour (logs : List ImpulseLog) : Nat :=
  (hourlyStats logs).indexOf ((hourlyStats logs).foldr max 0)

/-- JS `String.prototype.split(/\s+/)` on a character list: the pieces
between maximal whitespace runs.  Like the JS regex split, a leading or
trailing whitespace run produces an empty piece, and the empty string
splits to `[[]]` (one empty piece); empty fragments are NOT discarded. -/
def splitWsCharsFuel : Nat → List Char → List (List Char)
  | 0, cs => [cs.takeWhile (fun c => !c.isWhitespace)]
  | fuel + 1, cs =>
    match cs.dropWhile (fun c => !c.isWhitespace) with
    | [] => [cs.takeWhile (fun c => !c.isWhitespace)]
    | _ :: tail =>
        cs.takeWhile (fun c => !c.isWhitespace) ::
          splitWsCharsFuel fuel (tail.dropWhile Char.isWhitespace)

/-- Entry point of the split: `cs.length` is enough fuel, because each
round consumes at least the separating whitespace character. -/
def splitWsChars (cs : List Char) : List (List Char) :=
  splitWsCharsFuel cs.length cs

/-- `feeling.toLowerCase().split(/\s+/)` as a list of strings. -/
def jsSplitWs (s : String) : List String :=
  (splitWsChars s.data).map (fun cs => String.mk cs)

/-- JS `String.prototype.toLowerCase`, character-wise (`Char.toLower`
covers the ASCII range; no claim depends on Unicode case folding). -/
def jsToLower (s : String) : String := String.mk (s.data.map Char.toLower)

/-- The word tokens a single log contributes:
`log.feeling.toLowerCase().split(/\s+/)`. -/
def tokensOf (l : ImpulseLog) : List String :=
  jsSplitWs (jsToLower l.feeling)

/-- All tokens of the window, in iteration order (logs in order, words of
each log in order) — the order in which `emotionWords[word]` is bumped. -/
def allTokens (logs : List ImpulseLog) : List String :=
  logs.flatMap tokensOf

/-- `emotionWords[word] = (emotionWords[word] || 0) + 1` on an association
list in key-insertion order (JS object string keys enumerate in insertion
order; the reordering JS applies to integer-like keys is not modelled —
no claim depends on the order among equal counts). -/
def bumpWord (m : List (String × Nat)) (w : String) : List (String × Nat) :=
  match m with
  | [] => [(w, 1)]
  | (k, n) :: rest => if k = w then (k, n + 1) :: rest else (k, n) :: bumpWord rest w

/-- The `emotionWords` frequency table after the two nested `forEach`
loops. -/
def emotionWords (logs : List ImpulseLog) : List (String × Nat) :=
  (allTokens logs).foldl bumpWord []

/-- The comparator `(a, b) => b[1] - a[1]` of the source's `.sort`:
descending by count. -/
def moreFrequentFirst (a b : String × Nat) : Prop := b.2 ≤ a.2

instance : DecidableRel moreFrequentFirst := fun a b => Nat.decLe b.2 a.2

instance : IsTotal (String × Nat) moreFrequentFirst :=
  ⟨fun a b => le_total b.2 a.2⟩

instance : IsTrans (String × Nat) moreFrequentFirst :=
  ⟨fun _ _ _ hab hbc => le_trans hbc hab⟩

/-- `Object.entries(emotionWords).sort((a,b) => b[1]-a[1]).slice(0,3)
.map(([word]) => word)`.  JS `sort` is stable, so any stable sort by the
same comparator (here: insertion sort) produces the same list. -/
def topEmotionWords (logs : List ImpulseLog) : List String :=
  (((emotionWords logs).insertionSort moreFrequentFirst).take 3).map Prod.fst

/-- JSON values, as produced by `JSON.parse`.  Numbers are exact rationals
(the idealization of the float64 numbers JS produces; no claim depends on
float precision). -/
inductive Json where
  | null
  | bool (b : Bool)
  | num (q : ℚ)
  | str (s : String)
  | arr (elems : List Json)
  | obj (fields : List (String × Json))
deriving Repr

/-- JSON whitespace: space, tab, line feed, carriage return. -/
def isJsonWs (c : Char) : Bool :=
  c = ' ' || c = '\t' || c = '\n' || c = '\r'

/-- Skip JSON whitespace. -/
def skipWs (cs : List Char) : List Char := cs.dropWhile isJsonWs

/-- Hex digit test. -/
def isHexDig (c : Char) : Bool :=
  c.isDigit || ('a' ≤ c && c ≤ 'f') || ('A' ≤ c && c ≤ 'F')

/-- Value of a hex digit. -/
def hexVal (c : Char) : Nat :=
  if c.isDigit then c.toNat - 48
  else if 'a' ≤ c ∧ c ≤ 'f' then c.toNat - 87
  else c.toNat - 55

/-- Parse the remainder of a JSON string literal (the opening `"` already
consumed), handling the JSON escapes; raw control characters are rejected
as `JSON.parse` rejects them.  (`\uXXXX` escapes in the surrogate range
are outside the model's `Char` type and map to the replacement of
`Char.ofNat`; no claim exercises them.) -/
def parseStringAux (cs : List Char) (acc : List Char) : Option (String × List Char) :=
  match cs with
  | [] => none
  | '"' :: rest => some (String.mk acc.reverse, rest)
  | '\\' :: esc =>
    match esc with
    | [] => none
    | c :: rest =>
      match c with
      | '"' => parseStringAux rest ('"' :: acc)
      | '\\' => parseStringAux rest ('\\' :: acc)
      | '/' => parseStringAux rest ('/' :: acc)
      | 'b' => parseStringAux rest ('\x08' :: acc)
      | 'f' => parseStringAux rest ('\x0c' :: acc)
      | 'n' => parseStringAux rest ('\n' :: acc)
      | 'r' => parseStringAux rest ('\r' :: acc)
      | 't' => parseStringAux rest ('\t' :: acc)
      | 'u' =>
        match rest with
        | a :: b :: c2 :: d :: rest2 =>
          if isHexDig a && isHexDig b && isHexDig c2 && isHexDig d then
            parseStringAux rest2
              (Char.ofNat (hexVal a * 4096 + hexVal b * 256 + hexVal c2 * 16 + hexVal d) :: acc)
          else none
        | _ => none
      | _ => none
  | c :: rest => if c.toNat < 32 then none else parseStringAux rest (c :: acc)
termination_by cs.length
decreasing_by all_goals simp_arith [*]

/-- Digits to a natural number. -/
def digitsToNat (ds : List Char) : Nat :=
  ds.foldl (fun n c => n * 10 + (c.toNat - 48)) 0

/-- Parse a JSON number (grammar: `-? (0 | [1-9][0-9]*) (\.[0-9]+)?
([eE][+-]?[0-9]+)?`), as an exact rational. -/
def parseNumber (cs : List Char) : Option (ℚ × List Char) :=
  let (neg, cs1) := match cs with
    | '-' :: rest => (true, rest)
    | _ => (false, cs)
  let ip := cs1.takeWhile Char.isDigit
  let cs2 := cs1.dropWhile Char.isDigit
  if ip.isEmpty then none
  else if 1 < ip.length && ip.headD '0' = '0' then none
  else
    let intPart : ℚ := (digitsToNat ip : ℚ)
    let (fracPart, cs3) : ℚ × List Char := match cs2 with
      | '.' :: rest =>
        let fd := rest.takeWhile Char.isDigit
        ((digitsToNat fd : ℚ) / (10 : ℚ) ^ fd.length, rest.dropWhile Char.isDigit)
      | _ => (0, cs2)
    let fracOk : Bool := match cs2 with
      | '.' :: rest => !(rest.takeWhile Char.isDigit).isEmpty
      | _ => true
    if !fracOk then none
    else
      let (expOk, expVal, cs4) : Bool × ℤ × List Char := match cs3 with
        | 'e' :: rest => match rest with
          | '+' :: r2 =>
            ((!(r2.takeWhile Char.isDigit).isEmpty),
              (digitsToNat (r2.takeWhile Char.isDigit) : ℤ), r2.dropWhile Char.isDigit)
          | '-' :: r2 =>
            ((!(r2.takeWhile Char.isDigit).isEmpty),
              -(digitsToNat (r2.takeWhile Char.isDigit) : ℤ), r2.dropWhile Char.isDigit)
          | _ =>
            ((!(rest.takeWhile Char.isDigit).isEmpty),
              (digitsToNat (rest.takeWhile Char.isDigit) : ℤ), rest.dropWhile Char.isDigit)
        | 'E' :: rest => match rest with
          | '+' :: r2 =>
            ((!(r2.takeWhile Char.isDigit).isEmpty),
              (digitsToNat (r2.takeWhile Char.isDigit) : ℤ), r2.dropWhile Char.isDigit)
          | '-' :: r2 =>
            ((!(r2.takeWhile Char.isDigit).isEmpty),
              -(digitsToNat (r2.takeWhile Char.isDigit) : ℤ), r2.dropWhile Char.isDigit)
          | _ =>
            ((!(rest.takeWhile Char.isDigit).isEmpty),
              (digitsToNat (rest.takeWhile Char.isDigit) : ℤ), rest.dropWhile Char.isDigit)
        | _ => (true, 0, cs3)
      if !expOk then none
      else
        let mag : ℚ := (intPart + fracPart) * (10 : ℚ) ^ expVal
        some (if neg then -mag else mag, cs4)

mutual

/-- Parse one JSON value (fuel-indexed; `parseJsonText` supplies enough
fuel for any input). -/
def parseValue : Nat → List Char → Option (Json × List Char)
  | 0, _ => none
  | fuel + 1, cs =>
    match skipWs cs with
    | 'n' :: 'u' :: 'l' :: 'l' :: rest => some (.null, rest)
    | 't' :: 'r' :: 'u' :: 'e' :: rest => some (.bool true, rest)
    | 'f' :: 'a' :: 'l' :: 's' :: 'e' :: rest => some (.bool false, rest)
    | '"' :: rest => (parseStringAux rest []).map (fun p => (.str p.1, p.2))
    | '[' :: rest =>
      (match skipWs rest with
       | ']' :: r2 => some (.arr [], r2)
       | _ => parseElems fuel rest [])
    | '{' :: rest =>
      (match skipWs rest with
       | '}' :: r2 => some (.obj [], r2)
       | _ => parseFields fuel rest [])
    | other => (parseNumber other).map (fun p => (.num p.1, p.2))

/-- Parse the elements of a non-empty array body (positioned at a value). -/
def parseElems : Nat → List Char → List Json → Option (Json × List Char)
  | 0, _, _ => none
  | fuel + 1, cs, acc =>
    match parseValue fuel cs with
    | none => none
    | some (v, rest) =>
      match skipWs rest with
      | ',' :: r2 => parseElems fuel r2 (v :: acc)
      | ']' :: r2 => some (.arr (v :: acc).reverse, r2)
      | _ => none

/-- Parse the fields of a non-empty object body (positioned at a key). -/
def parseFields : Nat → List Char → List (String × Json) → Option (Json × List Char)
  | 0, _, _ => none
  | fuel + 1, cs, acc =>
    match skipWs cs with
    | '"' :: r =>
      (match parseStringAux r [] with
       | none => none
       | some (k, r2) =>
         match skipWs r2 with
         | ':' :: r3 =>
           (match parseValue fuel r3 with
            | none => none
            | some (v, r4) =>
              match skipWs r4 with
              | ',' :: r5 => parseFields fuel r5 ((k, v) :: acc)
              | '}' :: r5 => some (.obj ((k, v) :: acc).reverse, r5)
              | _ => none)
         | _ => none)
    | _ => none

end

/-- `JSON.parse`: parse a complete JSON document (trailing content other
than whitespace is an error). -/
def parseJsonText (s : String) : Option Json :=
  match parseValue (2 * s.length + 2) s.data with
  | some (v, rest) => if (skipWs rest).isEmpty then some v else none
  | none => none

/-- JS `String.prototype.trim`: strip whitespace from both ends. -/
def jsTrim (s : String) : String :=
  String.mk ((s.data.dropWhile Char.isWhitespace).reverse.dropWhile Char.isWhitespace).reverse

/-- JS `x || dflt` on a nullable string: both `null` and `""` are falsy. -/
def jsOrDefault (dflt : String) (content : Option String) : String :=
  match content with
  | none => dflt
  | some s => if s = "" then dflt else s

/-- The fallback analysis object built in the `catch (parseError)` branch of
`POST /api/analyze-emotion` (source strings, which are Chinese). -/
def fallbackAnalysis : Json :=
  .obj [("primaryEmotion", .str "未知"), ("intensity", .num 5),
        ("triggers", .arr [.str "无法确定"]),
        ("copingStrategies", .arr [.str "深呼吸", .str "寻求支持"])]

/-- Outcome of `POST /api/analyze-emotion`. -/
inductive AnalyzeResult where
  | validationError (msg : String)  -- 400 `请提供情绪描述`
  | serviceError (msg : String)     -- 500 `情绪分析服务暂时不可用`
  | ok (analysis : Json)            -- 200 `res.json(analysis)`
deriving Repr

/-- `POST /api/analyze-emotion`.  `feeling` is the request-body field
(`none` = absent); `ai` is the external completion call: `.error` = the
call threw, `.ok c` = it returned with `message.content = c`.  The body
text is `JSON.parse(analysisText || '{}')` guarded by a `try/catch` whose
handler substitutes `fallbackAnalysis`. -/
def analyzeEmotion (feeling : Option String) (ai : Except Unit (Option String)) :
    AnalyzeResult :=
  match feeling with
  | none => .validationError "请提供情绪描述"
  | some f =>
    if jsTrim f = "" then .validationError "请提供情绪描述"
    else
      match ai with
      | .error _ => .serviceError "情绪分析服务暂时不可用"
      | .ok content =>
        match parseJsonText (jsOrDefault "{}" content) with
        | some v => .ok v
        | none => .ok fallbackAnalysis

/-- Spec-side definition (§3, claim C3): the expected `EmotionAnalysis`
JSON shape — an object with a string `primaryEmotion`, an integer
`intensity` in 1–10, and string arrays `triggers` and `copingStrategies`.
Used only to state C3; the source never checks this. -/
def isStringArray : Json → Bool
  | .arr es => es.all (fun e => match e with | .str _ => true | _ => false)
  | _ => false

/-- Spec-side definition (claim C3): field lookup in a JSON object. -/
def lookupField (fields : List (String × Json)) (k : String) : Option Json :=
  (fields.find? (fun p => p.1 = k)).map Prod.snd

/-- Spec-side definition (claim C3): the `EmotionAnalysis` shape test. -/
def isEmotionAnalysisShape (j : Json) : Bool :=
  match j with
  | .obj fields =>
    (match lookupField fields "primaryEmotion" with
     | some (.str _) => true | _ => false) &&
    (match lookupField fields "intensity" with
     | some (.num q) => q.den = 1 && 1 ≤ q.num && q.num ≤ 10 | _ => false) &&
    (match lookupField fields "triggers" with
     | some t => isStringArray t | _ => false) &&
    (match lookupField fields "copingStrategies" with
     | some t => isStringArray t | _ => false)
  | _ => false

/-- Spec-side definition (claim C3's quoted fallback value, English
strings), to be compared with the source's `fallbackAnalysis`. -/
def specFallbackAnalysis : Json :=
  .obj [("primaryEmotion", .str "unknown"), ("intensity", .num 5),
        ("triggers", .arr [.str "undetermined"]),
        ("copingStrategies", .arr [.str "breathe", .str "seek support"])]

/-- `ORDER BY datetime DESC`: the comparator ordering newer entries first. -/
def newerFirst (a b : ImpulseLog) : Prop := b.datetime ≤ a.datetime

instance : DecidableRel newerFirst := fun a b => Nat.decLe b.datetime a.datetime

instance : IsTotal ImpulseLog newerFirst := ⟨fun a b => le_total b.datetime a.datetime⟩

instance : IsTrans ImpulseLog newerFirst :=
  ⟨fun _ _ _ hab hbc => le_trans hbc hab⟩

/-- The 7-day window of the chat-context query:
`WHERE datetime >= NOW() - INTERVAL '7 days'`. -/
def chatWindow (now : Nat) (logs : List ImpulseLog) : List ImpulseLog :=
  logs.filter (fun l => now - sevenDaysMs ≤ l.datetime)

/-- The chat-context rows of `POST /api/chat`:
`WHERE datetime >= NOW() - INTERVAL '7 days' ORDER BY datetime DESC
LIMIT 10` (SQL sorting modelled by a stable sort on the comparator;
`LIMIT` is `take`). -/
def chatContextLogs (now : Nat) (logs : List ImpulseLog) : List ImpulseLog :=
  ((chatWindow now logs).insertionSort newerFirst).take 10

/-- Request body of `POST /api/logs` (`none` = field absent/null). -/
structure LogRequestBody where
  datetime : Option Nat
  feeling : Option String
  acted : Option String
deriving Repr, DecidableEq

/-- Outcome of `POST /api/logs`. -/
inductive SubmitResult where
  | created (row : ImpulseLog)  -- 201 with the inserted row
  | dbError                     -- 500 `数据库错误` (the INSERT threw)
deriving Repr, DecidableEq

/-- `POST /api/logs`: the body is passed straight to
`INSERT INTO impulse_logs (datetime, feeling, acted)`; the route itself
performs no validation.  The insert fails only on the schema's constraints
(`NOT NULL` on each column, `CHECK (acted IN ('yes','no'))`).  `SERIAL`
ids are modelled as `store.length + 1` (the id value is immaterial to the
claims). -/
def submitLog (body : LogRequestBody) (store : List ImpulseLog) :
    SubmitResult × List ImpulseLog :=
  match body.datetime, body.feeling, body.acted with
  | some dt, some f, some a =>
    if a = "yes" ∨ a = "no" then
      (.created ⟨store.length + 1, dt, f, a⟩, store ++ [⟨store.length + 1, dt, f, a⟩])
    else (.dbError, store)
  | _, _, _ => (.dbError, store)

/-- Outcome of `DELETE /api/logs/:id`. -/
inductive DeleteResult where
  | noContent  -- 204, unconditionally
deriving Repr, DecidableEq

/-- `DELETE /api/logs/:id`: `DELETE FROM impulse_logs WHERE id = $1`, then
204 — no existence check. -/
def deleteLog (id : Nat) (store : List ImpulseLog) : DeleteResult × List ImpulseLog :=
  (.noContent, store.filter (fun l => l.id ≠ id))

/-- Error outcomes of `POST /api/reports/generate`. -/
inductive ReportError where
  | insufficientData   -- 400 `没有足够的数据生成报告`
  | serviceUnavailable -- the completion call threw; surfaced by the
                       -- route's catch as 500 `生成报告失败`
deriving Repr, DecidableEq

/-- Result of one invocation of `POST /api/reports/generate`:
the response, the `reports` table afterwards, and whether the external
completion call was made. -/
structure GenOutcome where
  result : Except ReportError Report
  reports : List Report
  aiCalled : Bool
deriving Repr

/-- `POST /api/reports/generate` (`generateWeeklyReport`): compute the
7-day window, select logs with `datetime BETWEEN weekStart AND weekEnd`,
fail with 400 if none, otherwise call the completion service (`ai` is its
outcome) and insert a report whose content is
`aiResponse...content || "无法生成洞察"`.  The statistics and context
string are computed from `listInWindow` (see `resistanceRate`, `peakHour`,
`topEmotionWords`) and do not affect control flow. -/
def generateWeeklyReport (now : Nat) (logStore : List ImpulseLog)
    (ai : Except Unit (Option String)) (reportStore : List Report) : GenOutcome :=
  let weekStart := now - sevenDaysMs
  let logs := listInWindow weekStart now logStore
  if logs.isEmpty then
    ⟨.error .insufficientData, reportStore, false⟩
  else
    match ai with
    | .error _ => ⟨.error .serviceUnavailable, reportStore, true⟩
    | .ok content =>
      let r : Report :=
        ⟨reportStore.length + 1, weekStart, now, jsOrDefault "无法生成洞察" content⟩
      ⟨.ok r, reportStore ++ [r], true⟩

/-- A log dated exactly at a window's right endpoint (example input). -/
def boundaryLog : ImpulseLog := ⟨1, 100, "edge", "no"⟩

/-- A log whose `feeling` is the empty string (example input; the schema's
`TEXT NOT NULL` admits `''` and `POST /api/logs` does not reject it). -/
def emptyFeelingLog : ImpulseLog := ⟨1, 0, "", "no"⟩

/-- The worked scenario of spec §8: three logs at 08:00, 08:30, 14:00. -/
def scenarioLogs : List ImpulseLog :=
  [⟨1, 8 * 3600000, "anxious about deadline", "no"⟩,
   ⟨2, 8 * 3600000 + 1800000, "anxious", "yes"⟩,
   ⟨3, 14 * 3600000, "bored", "no"⟩]

/-- Eleven in-window logs with distinct datetimes (example input for the
chat-context cap). -/
def elevenLogs : List ImpulseLog :=
  [⟨1, 999003000, "a", "no"⟩, ⟨2, 999001000, "b", "yes"⟩,
   ⟨3, 999011000, "c", "no"⟩, ⟨4, 999002000, "d", "no"⟩,
   ⟨5, 999007000, "e", "yes"⟩, ⟨6, 999005000, "f", "no"⟩,
   ⟨7, 999009000, "g", "no"⟩, ⟨8, 999004000, "h", "yes"⟩,
   ⟨9, 999010000, "i", "no"⟩, ⟨10, 999006000, "j", "no"⟩,
   ⟨11, 999008000, "k", "no"⟩]

/-! ## Theorems -/

/-- C1: an invocation of `generateWeeklyReport` whose 7-day window contains
zero impulse logs fails with `InsufficientData` (400), leaves the report
store unchanged, and makes no AI narrative call. -/
theorem generateWeeklyReport_empty_window (now : Nat) (logStore : List ImpulseLog)
    (ai : Except Unit (Option String)) (reportStore : List Report)
    (h : listInWindow (now - sevenDaysMs) now logStore = []) :
    generateWeeklyReport now logStore ai reportStore =
      ⟨.error .insufficientData, reportStore, false⟩ := by
  unfold generateWeeklyReport
  simp [h]

/-- Witness for C1: a store whose only log is older than the window. -/
theorem generateWeeklyReport_empty_window_witness :
    listInWindow (1209600000 - sevenDaysMs) 1209600000 [⟨1, 0, "old", "no"⟩] = [] ∧
    generateWeeklyReport 1209600000 [⟨1, 0, "old", "no"⟩] (.ok (some "text")) [] =
      ⟨.error .insufficientData, [], false⟩ :=
  ⟨rfl, generateWeeklyReport_empty_window 1209600000 [⟨1, 0, "old", "no"⟩] _ [] rfl⟩

/-- C2: when the AI narrative call fails, `generateWeeklyReport` fails with
`ServiceUnavailable` and persists nothing: the report store is exactly as
before. -/
theorem generateWeeklyReport_ai_failure (now : Nat) (logStore : List ImpulseLog)
    (reportStore : List Report)
    (h : listInWindow (now - sevenDaysMs) now logStore ≠ []) :
    generateWeeklyReport now logStore (.error ()) reportStore =
      ⟨.error .serviceUnavailable, reportStore, true⟩ := by
  unfold generateWeeklyReport
  simp [h]

/-- Witness for C2: one in-window log, failing completion call. -/
theorem generateWeeklyReport_ai_failure_witness :
    listInWindow (1209600000 - sevenDaysMs) 1209600000 [⟨1, 1000000000, "x", "no"⟩] ≠ [] ∧
    generateWeeklyReport 1209600000 [⟨1, 1000000000, "x", "no"⟩] (.error ())
        [⟨1, 0, 10, "r"⟩] =
      ⟨.error .serviceUnavailable, [⟨1, 0, 10, "r"⟩], true⟩ :=
  ⟨by decide,
   generateWeeklyReport_ai_failure 1209600000 [⟨1, 1000000000, "x", "no"⟩]
     [⟨1, 0, 10, "r"⟩] (by decide)⟩

/-- C7 counterexample: the log selection is NOT half-open — a log dated
exactly at the window's right endpoint (`datetime = end`) is selected,
because SQL `BETWEEN` is inclusive at both endpoints. -/
theorem listInWindow_includes_right_endpoint :
    boundaryLog.datetime = 100 ∧ listInWindow 0 100 [boundaryLog] = [boundaryLog] :=
  ⟨rfl, rfl⟩

/-- C7 (amended): the window is closed, `[start, end]`: an entry is
selected iff `start ≤ datetime ∧ datetime ≤ end`; entries strictly before
`start` or strictly after `end` are excluded. -/
theorem mem_listInWindow_iff (start stop : Nat) (l : ImpulseLog)
    (logs : List ImpulseLog) :
    l ∈ listInWindow start stop logs ↔
      l ∈ logs ∧ start ≤ l.datetime ∧ l.datetime ≤ stop := by
  simp [listInWindow, List.mem_filter, and_assoc]

/-- C9 counterexample: `submitLog` with an EMPTY feeling text succeeds
(201) and inserts the row — no `ValidationError` is raised. -/
theorem submitLog_accepts_empty_feeling :
    submitLog ⟨some 0, some "", some "no"⟩ [] =
      (.created ⟨1, 0, "", "no"⟩, [⟨1, 0, "", "no"⟩]) := by
  decide

/-- C9 (amended): `POST /api/logs` performs no feeling validation: a body
with the feeling field absent fails with the storage layer's `NOT NULL`
violation (500 database error), not `ValidationError`, inserting nothing;
a body with any present feeling — including the empty string — and valid
other fields is inserted successfully. -/
theorem submitLog_no_validation (store : List ImpulseLog) (dt : Option Nat)
    (f : String) (a : Option String) :
    (submitLog ⟨dt, none, a⟩ store = (.dbError, store)) ∧
    (∀ d : Nat, ∀ act : String, act = "yes" ∨ act = "no" →
      submitLog ⟨some d, some f, some act⟩ store =
        (.created ⟨store.length + 1, d, f, act⟩,
         store ++ [⟨store.length + 1, d, f, act⟩])) := by
  constructor
  · cases dt <;> cases a <;> rfl
  · intro d act hact
    unfold submitLog
    simp [hact]

/-- Witness for C9 (amended): missing feeling → database error, empty
feeling → inserted. -/
theorem submitLog_no_validation_witness :
    submitLog ⟨some 0, none, some "no"⟩ [] = (.dbError, []) ∧
    submitLog ⟨some 0, some "", some "no"⟩ [] =
      (.created ⟨1, 0, "", "no"⟩, [⟨1, 0, "", "no"⟩]) :=
  ⟨(submitLog_no_validation [] (some 0) "" (some "no")).1,
   (submitLog_no_validation [] (some 0) "" (some "no")).2 0 "no" (Or.inr rfl)⟩

/-- C10: deleting an id that is not in the log store succeeds (204, no
`NotFound`) and leaves the store unchanged; deleting the same id twice
equals deleting it once. -/
theorem deleteLog_missing_id (id : Nat) (store : List ImpulseLog)
    (h : ∀ l ∈ store, l.id ≠ id) :
    deleteLog id store = (.noContent, store) ∧
    deleteLog id (deleteLog id store).2 = deleteLog id store := by
  refine ⟨?_, ?_⟩
  · unfold deleteLog
    rw [Prod.mk.injEq]
    refine ⟨rfl, ?_⟩
    rw [List.filter_eq_self]
    intro l hl
    simpa using h l hl
  · unfold deleteLog
    rw [Prod.mk.injEq]
    refine ⟨rfl, ?_⟩
    rw [List.filter_filter]
    simp

/-- Witness for C10: id 5 absent from a one-element store. -/
theorem deleteLog_missing_id_witness :
    (∀ l ∈ [ImpulseLog.mk 1 0 "a" "no"], l.id ≠ 5) ∧
    deleteLog 5 [ImpulseLog.mk 1 0 "a" "no"] =
      (.noContent, [ImpulseLog.mk 1 0 "a" "no"]) :=
  ⟨by decide, (deleteLog_missing_id 5 [ImpulseLog.mk 1 0 "a" "no"] (by decide)).1⟩

/-- C3 counterexample: model output that is not the `EmotionAnalysis`
shape is NOT replaced by the fallback.  An empty completion content is
defaulted to `'{}'`, which parses to the empty object `{}` — not the
EmotionAnalysis shape — and is returned as-is; moreover it differs from
the claim's quoted fallback value.  (The source's fallback strings are
also the Chinese `未知`/`无法确定`/`深呼吸`/`寻求支持`, not the claim's
English words.) -/
theorem analyzeEmotion_shape_mismatch_not_fallback :
    analyzeEmotion (some "pressure") (.ok (some "")) = .ok (.obj []) ∧
    isEmotionAnalysisShape (.obj []) = false ∧
    Json.obj [] ≠ specFallbackAnalysis ∧
    fallbackAnalysis ≠ specFallbackAnalysis := by
  refine ⟨rfl, rfl, ?_, ?_⟩
  · intro hcontra
    rw [specFallbackAnalysis] at hcontra
    injection hcontra with hfields
    exact List.noConfusion hfields
  · intro hcontra
    rw [fallbackAnalysis, specFallbackAnalysis] at hcontra
    injection hcontra with hfields
    injection hfields with hhead
    injection hhead with _ hval
    injection hval with hstr
    exact absurd hstr (by decide)

/-- C3 (amended): only a JSON-parse FAILURE of the (null/empty-defaulted)
model output is replaced — silently, never raising — by the fixed fallback
`{primaryEmotion: "未知", intensity: 5, triggers: ["无法确定"],
copingStrategies: ["深呼吸", "寻求支持"]}`; and on any completion content
whatsoever the operation returns a 200 payload, never an error. -/
theorem analyzeEmotion_parse_failure_fallback (f : String) (content : Option String)
    (hf : jsTrim f ≠ "")
    (hp : parseJsonText (jsOrDefault "{}" content) = none) :
    analyzeEmotion (some f) (.ok content) = .ok fallbackAnalysis ∧
    ∀ c : Option String, ∃ j : Json, analyzeEmotion (some f) (.ok c) = .ok j := by
  constructor
  · unfold analyzeEmotion
    simp [hf, hp]
  · intro c
    unfold analyzeEmotion
    simp only [hf, if_false]
    cases parseJsonText (jsOrDefault "{}" c) <;> exact ⟨_, rfl⟩

/-- Witness for C3 (amended): non-JSON model output yields the fallback. -/
theorem analyzeEmotion_parse_failure_fallback_witness :
    jsTrim "pressure" ≠ "" ∧
    parseJsonText (jsOrDefault "{}" (some "not json")) = none ∧
    analyzeEmotion (some "pressure") (.ok (some "not json")) = .ok fallbackAnalysis :=
  ⟨by decide, rfl,
   (analyzeEmotion_parse_failure_fallback "pressure" (some "not json")
     (by decide) rfl).1⟩

/-- C4: for every non-empty window, `resistanceRate` equals the half-up
rounding of `resisted / total × 100` with `resisted = total − acted`; it
lies in `[0, 100]`, is `100` when no entry is acted, and `0` when every
entry is acted. -/
theorem resistanceRate_spec (logs : List ImpulseLog) (h : logs ≠ []) :
    resistanceRate logs =
      ⌊((logs.length - actedImpulses logs : ℕ) : ℚ) / (logs.length : ℚ) * 100 + 1 / 2⌋ ∧
    0 ≤ resistanceRate logs ∧ resistanceRate logs ≤ 100 ∧
    (actedImpulses logs = 0 → resistanceRate logs = 100) ∧
    (actedImpulses logs = logs.length → resistanceRate logs = 0) := by
  have hlen : 0 < logs.length := List.length_pos.mpr h
  have hq0 : (0 : ℚ) < (logs.length : ℚ) := by exact_mod_cast hlen
  have hrle : resistedImpulses logs ≤ logs.length := Nat.sub_le _ _
  have hqr : ((resistedImpulses logs : ℚ)) ≤ (logs.length : ℚ) := by exact_mod_cast hrle
  have hlow : (0 : ℚ) ≤ (resistedImpulses logs : ℚ) / (logs.length : ℚ) * 100 := by
    positivity
  have hhigh : (resistedImpulses logs : ℚ) / (logs.length : ℚ) * 100 ≤ 100 := by
    rw [div_mul_eq_mul_div, div_le_iff hq0]
    nlinarith
  refine ⟨rfl, ?_, ?_, ?_, ?_⟩
  · exact Int.le_floor.mpr (by push_cast; linarith)
  · exact Int.floor_le_iff.mpr (by push_cast; linarith)
  · intro ha
    unfold resistanceRate jsMathRound
    have hr : resistedImpulses logs = logs.length := by
      unfold resistedImpulses
      omega
    rw [hr, div_self (ne_of_gt hq0)]
    rw [Int.floor_eq_iff]
    constructor <;> norm_num
  · intro ha
    unfold resistanceRate jsMathRound
    have hr : resistedImpulses logs = 0 := by
      unfold resistedImpulses
      omega
    rw [hr]
    norm_num

/-- Witness for C4: the spec §8 scenario (3 logs, 1 acted). -/
theorem resistanceRate_spec_witness :
    scenarioLogs ≠ [] ∧
    0 ≤ resistanceRate scenarioLogs ∧ resistanceRate scenarioLogs ≤ 100 :=
  ⟨by decide, (resistanceRate_spec scenarioLogs (by decide)).2.1,
   (resistanceRate_spec scenarioLogs (by decide)).2.2.1⟩

/-- The maximum-with-0 fold bounds every element (helper). -/
theorem le_foldr_max (l : List Nat) : ∀ x ∈ l, x ≤ l.foldr max 0 := by
  induction l with
  | nil => intro x hx; cases hx
  | cons a t ih =>
    intro x hx
    rcases List.mem_cons.mp hx with hx | hx
    · subst hx; exact le_max_left _ _
    · exact le_trans (ih x hx) (le_max_right _ _)

/-- On a non-empty list of naturals, `foldr max 0` is attained (helper). -/
theorem foldr_max_mem (l : List Nat) (h : l ≠ []) : l.foldr max 0 ∈ l := by
  induction l with
  | nil => exact absurd rfl h
  | cons a t ih =>
    cases t with
    | nil => simp
    | cons b t' =>
      have hmem := ih (by simp)
      rw [List.foldr_cons]
      rcases le_total a ((b :: t').foldr max 0) with hle | hle
      · rw [max_eq_right hle]
        exact List.mem_cons_of_mem _ hmem
      · rw [max_eq_left hle]
        exact List.mem_cons_self _ _

/-- C5: for every non-empty window, `peakHour` is an hour index below 24
whose bucket count is maximal among all 24 buckets, and every strictly
lower hour index has a strictly smaller count (lowest-index tie-break,
since `indexOf` returns the first occurrence of the maximum). -/
theorem peakHour_spec (logs : List ImpulseLog) (h : logs ≠ []) :
    peakHour logs < 24 ∧
    (∀ i < 24, hourCount logs i ≤ hourCount logs (peakHour logs)) ∧
    (∀ i < peakHour logs, hourCount logs i < hourCount logs (peakHour logs)) := by
  classical
  have hLlen : (hourlyStats logs).length = 24 := by
    simp [hourlyStats]
  have hLne : hourlyStats logs ≠ [] := by
    intro hnil
    rw [hnil] at hLlen
    simp at hLlen
  have hMmem : (hourlyStats logs).foldr max 0 ∈ hourlyStats logs :=
    foldr_max_mem _ hLne
  have hidx : (hourlyStats logs).indexOf ((hourlyStats logs).foldr max 0) <
      (hourlyStats logs).length :=
    List.indexOf_lt_length.mpr hMmem
  have hpk24 : peakHour logs < 24 := by
    rw [← hLlen]
    exact hidx
  have hgetstat : ∀ (i : Nat) (hh : i < (hourlyStats logs).length),
      (hourlyStats logs).get ⟨i, hh⟩ = hourCount logs i := by
    intro i hh
    simp [hourlyStats]
  have hpkval : (hourlyStats logs).get ⟨peakHour logs, hidx⟩ =
      (hourlyStats logs).foldr max 0 :=
    List.indexOf_get hidx
  have hpkcount : hourCount logs (peakHour logs) = (hourlyStats logs).foldr max 0 := by
    rw [← hpkval, hgetstat]
  have hle : ∀ i : Nat, i < 24 → hourCount logs i ≤ hourCount logs (peakHour logs) := by
    intro i hi
    rw [hpkcount]
    have hmem : (hourlyStats logs).get ⟨i, by rw [hLlen]; exact hi⟩ ∈ hourlyStats logs :=
      List.get_mem _ _ _
    rw [hgetstat] at hmem
    exact le_foldr_max _ _ hmem
  refine ⟨hpk24, hle, ?_⟩
  intro i hi
  have hi24 : i < 24 := lt_trans hi hpk24
  have hneq : hourCount logs i ≠ hourCount logs (peakHour logs) := by
    intro heq
    have hhf : i < (hourlyStats logs).findIdx
        (fun x => x == (hourlyStats logs).foldr max 0) := hi
    have hfind := List.not_of_lt_findIdx hhf
    have hget : (hourlyStats logs).get ⟨i, by rw [hLlen]; exact hi24⟩ =
        (hourlyStats logs).foldr max 0 := by
      rw [hgetstat, heq, hpkcount]
    have hbeq : ((hourlyStats logs).get ⟨i, by rw [hLlen]; exact hi24⟩ ==
        (hourlyStats logs).foldr max 0) = false := hfind
    rw [hget] at hbeq
    simp at hbeq
  exact lt_of_le_of_ne (hle i hi24) hneq

/-- Witness for C5: the spec §8 scenario, whose peak hour is 8. -/
theorem peakHour_spec_witness :
    scenarioLogs ≠ [] ∧ peakHour scenarioLogs = 8 ∧ peakHour scenarioLogs < 24 :=
  ⟨by decide, by decide, (peakHour_spec scenarioLogs (by decide)).1⟩

/-- Keys of the frequency table after one bump: unchanged when the word is
already a key, appended otherwise (helper). -/
theorem bumpWord_keys (m : List (String × Nat)) (w : String) :
    (bumpWord m w).map Prod.fst =
      if w ∈ m.map Prod.fst then m.map Prod.fst else m.map Prod.fst ++ [w] := by
  induction m with
  | nil => simp [bumpWord]
  | cons p t ih =>
    obtain ⟨k, n⟩ := p
    by_cases hkw : k = w
    · subst hkw
      simp [bumpWord]
    · simp only [bumpWord, if_neg hkw, List.map_cons, ih]
      by_cases hw : w ∈ t.map Prod.fst
      · simp [hw, Ne.symm hkw]
      · simp [hw, Ne.symm hkw]

/-- Keys of the frequency table stay duplicate-free and drawn from the
seen words (helper). -/
theorem foldl_bumpWord_keys (ws : List String) :
    ∀ m : List (String × Nat), (m.map Prod.fst).Nodup →
      ((ws.foldl bumpWord m).map Prod.fst).Nodup ∧
      (ws.foldl bumpWord m).map Prod.fst ⊆ m.map Prod.fst ++ ws := by
  induction ws with
  | nil =>
    intro m h
    exact ⟨h, by simp⟩
  | cons w ws ih =>
    intro m hnd
    rw [List.foldl_cons]
    by_cases hw : w ∈ m.map Prod.fst
    · have h1 : (bumpWord m w).map Prod.fst = m.map Prod.fst := by
        rw [bumpWord_keys, if_pos hw]
      obtain ⟨hn, hs⟩ := ih (bumpWord m w) (h1 ▸ hnd)
      refine ⟨hn, ?_⟩
      rw [h1] at hs
      intro x hx
      have hx2 := hs hx
      simp only [List.mem_append, List.mem_cons] at hx2 ⊢
      tauto
    · have h1 : (bumpWord m w).map Prod.fst = m.map Prod.fst ++ [w] := by
        rw [bumpWord_keys, if_neg hw]
      have hnd' : ((bumpWord m w).map Prod.fst).Nodup := by
        rw [h1]
        rw [List.nodup_append]
        exact ⟨hnd, List.nodup_singleton _, by simpa using hw⟩
      obtain ⟨hn, hs⟩ := ih _ hnd'
      refine ⟨hn, ?_⟩
      rw [h1] at hs
      intro x hx
      have hx2 := hs hx
      simp only [List.mem_append, List.mem_cons, List.mem_singleton] at hx2 ⊢
      tauto

/-- The `emotionWords` table has duplicate-free keys, all of which are
tokens of the window (helper). -/
theorem emotionWords_keys (logs : List ImpulseLog) :
    ((emotionWords logs).map Prod.fst).Nodup ∧
    (emotionWords logs).map Prod.fst ⊆ allTokens logs := by
  have h := foldl_bumpWord_keys (allTokens logs) [] (by simp)
  simpa [emotionWords] using h

/-- C6 counterexample: empty fragments are NOT ignored.  A log whose
feeling is the empty string contributes the empty token, which then ranks:
`topEmotionWords` of that window is `[""]` — it contains the empty string,
and its length (1) exceeds the number of distinct NON-empty tokens (0). -/
theorem topEmotionWords_empty_fragment :
    topEmotionWords [emptyFeelingLog] = [""] ∧
    "" ∈ topEmotionWords [emptyFeelingLog] ∧
    (allTokens [emptyFeelingLog]).filter (fun w => w ≠ "") = [] := by
  refine ⟨by decide, by decide, by decide⟩

/-- C6 (amended): `topEmotionWords` lower-cases each feeling, splits on
whitespace — keeping the empty fragments the JS regex split produces at
the ends (so the empty token can occur) — counts token frequency across
the window, stable-sorts by descending count and takes the first 3; its
length is at most 3 and at most the number of distinct tokens (the empty
token included), and every element is a token of the window. -/
theorem topEmotionWords_spec (logs : List ImpulseLog) :
    topEmotionWords logs =
      (((emotionWords logs).insertionSort moreFrequentFirst).take 3).map Prod.fst ∧
    (topEmotionWords logs).length ≤ 3 ∧
    (topEmotionWords logs).length ≤ (allTokens logs).dedup.length ∧
    ∀ w ∈ topEmotionWords logs, w ∈ allTokens logs := by
  obtain ⟨hnd, hsub⟩ := emotionWords_keys logs
  have hperm : ((emotionWords logs).insertionSort moreFrequentFirst).Perm
      (emotionWords logs) := List.perm_insertionSort _ _
  have hkeysperm : (((emotionWords logs).insertionSort moreFrequentFirst).map
      Prod.fst).Perm ((emotionWords logs).map Prod.fst) := hperm.map _
  have hndsorted : (((emotionWords logs).insertionSort moreFrequentFirst).map
      Prod.fst).Nodup := (hkeysperm.nodup_iff).mpr hnd
  have hsubl : List.Sublist (topEmotionWords logs)
      (((emotionWords logs).insertionSort moreFrequentFirst).map Prod.fst) := by
    unfold topEmotionWords
    exact (List.take_sublist _ _).map _
  have hndtop : (topEmotionWords logs).Nodup := hsubl.nodup hndsorted
  have htopsub : ∀ w ∈ topEmotionWords logs, w ∈ allTokens logs := by
    intro w hwtop
    have hw1 : w ∈ ((emotionWords logs).insertionSort moreFrequentFirst).map
        Prod.fst := hsubl.subset hwtop
    have hw2 : w ∈ (emotionWords logs).map Prod.fst := hkeysperm.mem_iff.mp hw1
    exact hsub hw2
  refine ⟨rfl, ?_, ?_, htopsub⟩
  · unfold topEmotionWords
    simp [List.length_take]
  · have hcard1 : (topEmotionWords logs).toFinset.card = (topEmotionWords logs).length :=
      List.toFinset_card_of_nodup hndtop
    have hcard2 : (allTokens logs).toFinset.card = (allTokens logs).dedup.length :=
      List.card_toFinset _
    have hsubf : (topEmotionWords logs).toFinset ⊆ (allTokens logs).toFinset := by
      intro x hx
      rw [List.mem_toFinset] at hx ⊢
      exact htopsub x hx
    have := Finset.card_le_card hsubf
    omega

/-- Witness for C6 (amended), at the spec §8 scenario: "anxious" — the
most frequent token — is indeed a token of the window, and the bounds
hold. -/
theorem topEmotionWords_spec_witness :
    (topEmotionWords scenarioLogs).length ≤ 3 ∧
    "anxious" ∈ topEmotionWords scenarioLogs ∧
    "anxious" ∈ allTokens scenarioLogs :=
  ⟨(topEmotionWords_spec scenarioLogs).2.1, by decide,
   (topEmotionWords_spec scenarioLogs).2.2.2 "anxious" (by decide)⟩

/-- C8: the chat context is the in-window logs (`datetime ≥ now − 7d`)
ordered newest-first and capped at 10: with more than 10 in-window logs it
has exactly 10 entries; with at most 10 it is a permutation of all of
them; it is sorted newest-first; it never contains an entry older than
7 days; and every in-window entry left out is no newer than any entry
kept (so the kept ones are the most recent). -/
theorem chatContextLogs_spec (now : Nat) (logs : List ImpulseLog) :
    (10 < (chatWindow now logs).length → (chatContextLogs now logs).length = 10) ∧
    ((chatWindow now logs).length ≤ 10 →
      (chatContextLogs now logs).Perm (chatWindow now logs)) ∧
    (chatContextLogs now logs).Sorted newerFirst ∧
    (∀ l ∈ chatContextLogs now logs, now - sevenDaysMs ≤ l.datetime) ∧
    (∀ y ∈ chatWindow now logs, y ∉ chatContextLogs now logs →
      ∀ x ∈ chatContextLogs now logs, y.datetime ≤ x.datetime) := by
  have hperm : ((chatWindow now logs).insertionSort newerFirst).Perm
      (chatWindow now logs) := List.perm_insertionSort _ _
  have hsorted : ((chatWindow now logs).insertionSort newerFirst).Sorted newerFirst :=
    List.sorted_insertionSort _ _
  have hslen : ((chatWindow now logs).insertionSort newerFirst).length =
      (chatWindow now logs).length := hperm.length_eq
  refine ⟨?_, ?_, ?_, ?_, ?_⟩
  · intro h10
    unfold chatContextLogs
    rw [List.length_take, hslen]
    omega
  · intro h10
    unfold chatContextLogs
    rw [List.take_of_length_le (by omega)]
    exact hperm
  · exact List.Pairwise.sublist (List.take_sublist _ _) hsorted
  · intro l hl
    have hmem : l ∈ (chatWindow now logs).insertionSort newerFirst :=
      List.take_subset _ _ hl
    have hmemw : l ∈ chatWindow now logs := hperm.mem_iff.mp hmem
    unfold chatWindow at hmemw
    have := List.mem_filter.mp hmemw
    simpa using this.2
  · intro y hy hyn x hx
    have hys : y ∈ (chatWindow now logs).insertionSort newerFirst :=
      hperm.mem_iff.mpr hy
    rw [← List.take_append_drop 10 ((chatWindow now logs).insertionSort newerFirst)]
      at hys
    have hyd : y ∈ ((chatWindow now logs).insertionSort newerFirst).drop 10 := by
      rcases List.mem_append.mp hys with hcase | hcase
      · exact absurd hcase hyn
      · exact hcase
    have hpw : List.Pairwise newerFirst
        (((chatWindow now logs).insertionSort newerFirst).take 10 ++
         ((chatWindow now logs).insertionSort newerFirst).drop 10) := by
      rw [List.take_append_drop]
      exact hsorted
    exact (List.pairwise_append.mp hpw).2.2 x hx y hyd

/-- Witness for C8: eleven in-window logs yield exactly ten context
entries. -/
theorem chatContextLogs_spec_witness :
    10 < (chatWindow 1000000000 elevenLogs).length ∧
    (chatContextLogs 1000000000 elevenLogs).length = 10 :=
  ⟨by decide, (chatContextLogs_spec 1000000000 elevenLogs).1 (by decide)⟩

end ImpulseApp
